import Mathlib

/-!
Verification of the FOMOBOT on-call swap bot (sb1.py).

Python strings are modelled as lists of Unicode code points
(`List Nat`), Python `bytes` as lists of byte values, and Slack message
timestamps as naturals ordered the way Slack orders its timestamp
strings.  Side effects on the Slack message store are reified as a list
of `Effect` values; a Python exception escaping a handler is modelled by
`Except.error`.
-/

namespace Fomobot

/-- Unicode code points of a Lean string literal, used to transcribe the
Python string literals of sb1.py. -/
def cp (s : String) : List Nat := s.toList.map Char.toNat

/-! ### base64 (Python `base64.b64encode` / `base64.b64decode`) -/

/-- Character of the standard base64 alphabet at index `n` (for `n < 64`). -/
def b64chr (n : Nat) : Nat :=
  if n < 26 then 65 + n
  else if n < 52 then 97 + (n - 26)
  else if n < 62 then 48 + (n - 52)
  else if n = 62 then 43
  else 47

/-- Standard base64 encoding of a byte list, with `=` padding, as performed
by `b64encode` in `post_swap_request` (sb1.py line 127). -/
def b64encode : List Nat → List Nat
  | a :: b :: c :: rest =>
      b64chr (a / 4) :: b64chr (a % 4 * 16 + b / 16) :: b64chr (b % 16 * 4 + c / 64)
        :: b64chr (c % 64) :: b64encode rest
  | [a, b] => [b64chr (a / 4), b64chr (a % 4 * 16 + b / 16), b64chr (b % 16 * 4), 61]
  | [a] => [b64chr (a / 4), b64chr (a % 4 * 16), 61, 61]
  | [] => []

/-- Membership in the standard base64 alphabet (padding `=` excluded). -/
def isB64Alpha (c : Nat) : Bool :=
  decide ((65 ≤ c ∧ c ≤ 90) ∨ (97 ≤ c ∧ c ≤ 122) ∨ (48 ≤ c ∧ c ≤ 57) ∨ c = 43 ∨ c = 47)

/-- Index of an alphabet character in the base64 alphabet. -/
def b64val (c : Nat) : Nat :=
  if 65 ≤ c ∧ c ≤ 90 then c - 65
  else if 97 ≤ c ∧ c ≤ 122 then c - 97 + 26
  else if 48 ≤ c ∧ c ≤ 57 then c - 48 + 52
  else if c = 43 then 62
  else 63

/-- The three bytes of a completed base64 quantum whose first three
six-bit values are in `quad` and whose fourth is `v4`. -/
def quadBytes (quad : List Nat) (v4 : Nat) : List Nat :=
  [quad.getD 0 0 * 4 + quad.getD 1 0 / 16,
   quad.getD 1 0 % 16 * 16 + quad.getD 2 0 / 4,
   quad.getD 2 0 % 4 * 64 + v4]

/-- The bytes of a quantum ended by padding after two or three data
characters (excess bits are dropped unchecked, as the non-strict decoder
does). -/
def flushQuad (quad : List Nat) : List Nat :=
  if quad.length = 2 then [quad.getD 0 0 * 4 + quad.getD 1 0 / 16]
  else [quad.getD 0 0 * 4 + quad.getD 1 0 / 16,
        quad.getD 1 0 % 16 * 16 + quad.getD 2 0 / 4]

/-- The non-strict (forgiving) mode of `binascii.a2b_base64`, character
by character: an alphabet character joins the current quantum (a full
quantum of four emits three bytes); a `=` is ignored while fewer than
two data characters are pending, and otherwise counts toward the
accumulated pad count — when position-in-quantum plus pads reaches four
the partial quantum is emitted and the rest of the input is ignored;
every other character is discarded.  Input ending with a non-empty
pending quantum raises (`none`): one leftover data character is invalid,
two or three are an incorrect-padding error. -/
def a2bB64 : List Nat → List Nat → Nat → Option (List Nat)
  | [], quad, _ => if quad.length = 0 then some [] else none
  | c :: rest, quad, pads =>
    if isB64Alpha c then
      if quad.length = 3 then
        (a2bB64 rest [] pads).map (fun bs => quadBytes quad (b64val c) ++ bs)
      else a2bB64 rest (quad ++ [b64val c]) pads
    else if c = 61 then
      if 2 ≤ quad.length then
        if 4 ≤ quad.length + (pads + 1) then some (flushQuad quad)
        else a2bB64 rest quad (pads + 1)
      else a2bB64 rest quad pads
    else a2bB64 rest quad pads

/-- Python `base64.b64decode` of a str argument: the argument must be
pure ASCII (else `ValueError`), then `binascii.a2b_base64` decodes it in
its default forgiving mode.  `none` models the raised exception. -/
def b64decode (s : List Nat) : Option (List Nat) :=
  if s.all (fun c => decide (c < 128)) then a2bB64 s [] 0 else none

/-! ### UTF-8 (Python `str.encode("utf-8")` and the utf-8 decode inside
`json.loads` when handed `bytes`) -/

/-- UTF-8 encoding of one code point. -/
def utf8EncodeChar (c : Nat) : List Nat :=
  if c < 0x80 then [c]
  else if c < 0x800 then [0xC0 + c / 64, 0x80 + c % 64]
  else if c < 0x10000 then [0xE0 + c / 4096, 0x80 + c / 64 % 64, 0x80 + c % 64]
  else [0xF0 + c / 0x40000, 0x80 + c / 4096 % 64, 0x80 + c / 64 % 64, 0x80 + c % 64]

/-- UTF-8 encoding of a code point list. -/
def utf8Encode (s : List Nat) : List Nat := (s.map utf8EncodeChar).flatten

/-- Is `b` a UTF-8 continuation byte. -/
def isContByte (b : Nat) : Bool := decide (0x80 ≤ b ∧ b < 0xC0)

/-- Byte-at-a-time strict UTF-8 decoding automaton.  The state is the
number of still-expected continuation bytes, the partial scalar value,
and the smallest value the completed scalar may legally take (the
overlong check).  A lead byte announces its class, each continuation
byte shifts six bits in, and a completed scalar is emitted after the
overlong, surrogate and range checks. -/
def utf8Go : Nat → Nat → Nat → List Nat → Option (List Nat)
  | 0, _, _, [] => some []
  | 0, _, _, b :: rest =>
    if b < 0x80 then (utf8Go 0 0 0 rest).map (b :: ·)
    else if b < 0xC2 then none
    else if b < 0xE0 then utf8Go 1 (b - 0xC0) 0x80 rest
    else if b < 0xF0 then utf8Go 2 (b - 0xE0) 0x800 rest
    else if b < 0xF5 then utf8Go 3 (b - 0xF0) 0x10000 rest
    else none
  | _ + 1, _, _, [] => none
  | pending + 1, acc, lo, b :: rest =>
    if isContByte b then
      if pending = 0 then
        if lo ≤ acc * 64 + (b - 0x80) ∧ acc * 64 + (b - 0x80) < 0x110000
            ∧ ¬(0xD800 ≤ acc * 64 + (b - 0x80) ∧ acc * 64 + (b - 0x80) ≤ 0xDFFF) then
          (utf8Go 0 0 0 rest).map ((acc * 64 + (b - 0x80)) :: ·)
        else none
      else utf8Go pending (acc * 64 + (b - 0x80)) lo rest
    else none

/-- Strict UTF-8 decoding of a byte list into code points, `none` on
invalid input (overlong forms, surrogates, truncation, bad leads), as the
CPython utf-8 codec behaves in strict mode. -/
def utf8Decode (bs : List Nat) : Option (List Nat) := utf8Go 0 0 0 bs

/-! ### JSON serialisation (`json.dumps` with default options) -/

/-- Lowercase hexadecimal digit character for `d < 16`. -/
def hexDig (d : Nat) : Nat := if d < 10 then 48 + d else 87 + d

/-- Four lowercase hex digit characters of `n < 0x10000`. -/
def hex4 (n : Nat) : List Nat :=
  [hexDig (n / 4096 % 16), hexDig (n / 256 % 16), hexDig (n / 16 % 16), hexDig (n % 16)]

/-- String escaping of one code point as performed by `json.dumps` with
its default `ensure_ascii=True`: short escapes for the common control
characters, `\uXXXX` for other non-printable or non-ASCII code points,
surrogate pairs above the BMP. -/
def escapeChar (c : Nat) : List Nat :=
  if c = 34 then [92, 34]
  else if c = 92 then [92, 92]
  else if c = 8 then [92, 98]
  else if c = 9 then [92, 116]
  else if c = 10 then [92, 110]
  else if c = 12 then [92, 102]
  else if c = 13 then [92, 114]
  else if c < 32 then 92 :: 117 :: hex4 c
  else if c ≤ 126 then [c]
  else if c < 0x10000 then 92 :: 117 :: hex4 c
  else
    92 :: 117 :: hex4 (0xD800 + (c - 0x10000) / 0x400)
      ++ (92 :: 117 :: hex4 (0xDC00 + (c - 0x10000) % 0x400))

/-- `json.dumps` escaping of a whole string (without the quotes). -/
def escapeString (s : List Nat) : List Nat := (s.map escapeChar).flatten

/-- A JSON string literal: quote, escaped body, quote. -/
def strLit (s : List Nat) : List Nat := 34 :: escapeString s ++ [34]

/-- Field set of a swap request: the five strings that
`post_swap_request` (sb1.py lines 120-126) serialises under the keys
`ru`, `sd`, `st`, `ed`, `et`. -/
structure SwapFields where
  ru : List Nat
  sd : List Nat
  st : List Nat
  ed : List Nat
  et : List Nat
deriving DecidableEq, Repr

/-- `json.dumps(metadata)` for the metadata dict of `post_swap_request`:
keys in insertion order `ru, sd, st, ed, et`, default separators. -/
def jsonDumpsMeta (f : SwapFields) : List Nat :=
  [123] ++ strLit (cp "ru") ++ cp ": " ++ strLit f.ru ++ cp ", "
        ++ strLit (cp "sd") ++ cp ": " ++ strLit f.sd ++ cp ", "
        ++ strLit (cp "st") ++ cp ": " ++ strLit f.st ++ cp ", "
        ++ strLit (cp "ed") ++ cp ": " ++ strLit f.ed ++ cp ", "
        ++ strLit (cp "et") ++ cp ": " ++ strLit f.et ++ [125]

/-- The token embedded in a posted swap-request message:
`b64encode(json.dumps(metadata).encode("utf-8")).decode("utf-8")`
(sb1.py line 127). -/
def encodeToken (f : SwapFields) : List Nat := b64encode (utf8Encode (jsonDumpsMeta f))

/-! ### JSON parsing (`json.loads`) -/

/-- Parsed JSON values.  Numeric values keep their matched lexeme (the
accepted IEEE constants are stored directly by their `str()` form
`nan`/`inf`/`-inf`): the grammar's integer lexemes are already canonical
decimal — `-0` excepted, normalised at formatting time — while the
formatting of genuine floats is floating-point behaviour and out of
scope; the bot's own tokens carry no numbers. -/
inductive JValue where
  | jnull
  | jtrue
  | jfalse
  | jnum (lexeme : List Nat)
  | jstr (s : List Nat)
  | jarr (items : List JValue)
  | jobj (members : List (List Nat × JValue))
deriving Repr, Inhabited

/-- JSON insignificant whitespace. -/
def isJsonWs (c : Nat) : Bool := decide (c = 32 ∨ c = 9 ∨ c = 10 ∨ c = 13)

/-- Drop leading JSON whitespace. -/
def skipWs (s : List Nat) : List Nat := s.dropWhile isJsonWs

/-- Is `c` the code of a hexadecimal digit. -/
def isHexDigit (c : Nat) : Bool :=
  decide ((48 ≤ c ∧ c ≤ 57) ∨ (97 ≤ c ∧ c ≤ 102) ∨ (65 ≤ c ∧ c ≤ 70))

/-- Value of a hexadecimal digit character. -/
def hexVal (c : Nat) : Nat :=
  if 48 ≤ c ∧ c ≤ 57 then c - 48
  else if 97 ≤ c ∧ c ≤ 102 then c - 97 + 10
  else c - 65 + 10

/-- Prepend a code point to the string of a string-parse result. -/
def mapFst (c : Nat) : Option (List Nat × List Nat) → Option (List Nat × List Nat)
  | some (s, r) => some (c :: s, r)
  | none => none

/-- Read four hexadecimal digit characters (either case) and their value. -/
def readHex4 : List Nat → Option (Nat × List Nat)
  | d1 :: d2 :: d3 :: d4 :: r =>
    if isHexDigit d1 && isHexDigit d2 && isHexDigit d3 && isHexDigit d4 then
      some (hexVal d1 * 4096 + hexVal d2 * 256 + hexVal d3 * 16 + hexVal d4, r)
    else none
  | _ => none

/-- Parse the body of a JSON string literal after the opening quote, up to
and including the closing quote, handling backslash escapes, `\uXXXX`
sequences and surrogate-pair recombination exactly as the CPython
`json` scanner does in its default strict mode (raw control characters
below 0x20 are rejected, lone surrogate escapes are kept as-is).  The
fuel argument only bounds recursion depth: every step consumes at least
one character, so callers pass one more than the input length and the
out-of-fuel arm is unreachable. -/
def parseStrBody : Nat → List Nat → Option (List Nat × List Nat)
  | 0, _ => none
  | _ + 1, [] => none
  | fuel + 1, c :: rest =>
    if c = 34 then some ([], rest)
    else if c = 92 then
      match rest with
      | [] => none
      | e :: r2 =>
        if e = 34 then mapFst 34 (parseStrBody fuel r2)
        else if e = 92 then mapFst 92 (parseStrBody fuel r2)
        else if e = 47 then mapFst 47 (parseStrBody fuel r2)
        else if e = 98 then mapFst 8 (parseStrBody fuel r2)
        else if e = 102 then mapFst 12 (parseStrBody fuel r2)
        else if e = 110 then mapFst 10 (parseStrBody fuel r2)
        else if e = 114 then mapFst 13 (parseStrBody fuel r2)
        else if e = 116 then mapFst 9 (parseStrBody fuel r2)
        else if e = 117 then
          match readHex4 r2 with
          | none => none
          | some (n, r3) =>
            if 0xD800 ≤ n ∧ n ≤ 0xDBFF then
              match r3 with
              | 92 :: 117 :: r4 =>
                match readHex4 r4 with
                | some (m, r5) =>
                  if 0xDC00 ≤ m ∧ m ≤ 0xDFFF then
                    mapFst (0x10000 + (n - 0xD800) * 0x400 + (m - 0xDC00))
                      (parseStrBody fuel r5)
                  else mapFst n (parseStrBody fuel r3)
                | none => mapFst n (parseStrBody fuel r3)
              | _ => mapFst n (parseStrBody fuel r3)
            else mapFst n (parseStrBody fuel r3)
        else none
    else if c < 32 then none
    else mapFst c (parseStrBody fuel rest)

/-- Is `c` a decimal digit character. -/
def isDigit (c : Nat) : Bool := decide (48 ≤ c ∧ c ≤ 57)

/-- The integer part of the JSON number grammar, `0|[1-9][0-9]*`: a
leading zero matches alone, anything after it is left for the caller. -/
def matchInt (s : List Nat) : Option (List Nat × List Nat) :=
  if s.head? = some 48 then some ([48], s.tail)
  else
    let ds := s.takeWhile isDigit
    if ds = [] then none else some (ds, s.dropWhile isDigit)

/-- The optional fraction group `(\.[0-9]+)?`: a dot not followed by a
digit matches nothing and is left unconsumed. -/
def numFrac (s : List Nat) : List Nat × List Nat :=
  if s.head? = some 46 then
    let ds := s.tail.takeWhile isDigit
    if ds = [] then ([], s) else (46 :: ds, s.tail.dropWhile isDigit)
  else ([], s)

/-- The optional exponent group `([eE][-+]?[0-9]+)?`, likewise matched
in full or not at all. -/
def numExp (s : List Nat) : List Nat × List Nat :=
  if s.head? = some 101 ∨ s.head? = some 69 then
    let r2 := s.tail
    if r2.head? = some 43 ∨ r2.head? = some 45 then
      let ds := r2.tail.takeWhile isDigit
      if ds = [] then ([], s)
      else (s.take 1 ++ r2.take 1 ++ ds, r2.tail.dropWhile isDigit)
    else
      let ds := r2.takeWhile isDigit
      if ds = [] then ([], s)
      else (s.take 1 ++ ds, r2.dropWhile isDigit)
  else ([], s)

/-- The number match the CPython `json` scanner performs at the current
position, mirroring `NUMBER_RE`
(`-?(0|[1-9][0-9]*)(\.[0-9]+)?([eE][-+]?[0-9]+)?`): the longest match of
that shape is taken as the lexeme, anything after it — for example the
second digit of `01` — is left for the surrounding grammar, which then
fails on it just as `json.loads` does. -/
def matchNumber (s : List Nat) : Option (List Nat × List Nat) :=
  let neg := if s.head? = some 45 then [45] else ([] : List Nat)
  (matchInt (if s.head? = some 45 then s.tail else s)).map (fun ir =>
    let fr := numFrac ir.2
    let ex := numExp fr.2
    (neg ++ ir.1 ++ fr.1 ++ ex.1, ex.2))

mutual

/-- Recursive-descent parse of one JSON value, fuel-bounded; the fuel is
instantiated above the input length so that it never runs out. -/
def parseValue : Nat → List Nat → Option (JValue × List Nat)
  | 0, _ => none
  | fuel + 1, input =>
    match input with
    | [] => none
    | c :: rest =>
      if c = 123 then
        if (skipWs rest).head? = some 125 then some (.jobj [], (skipWs rest).tail)
        else parseMembers fuel (skipWs rest) []
      else if c = 91 then
        if (skipWs rest).head? = some 93 then some (.jarr [], (skipWs rest).tail)
        else parseItems fuel (skipWs rest) []
      else if c = 34 then
        (parseStrBody (rest.length + 1) rest).map (fun sr => (.jstr sr.1, sr.2))
      else if c = 116 then
        if rest.take 3 = [114, 117, 101] then some (.jtrue, rest.drop 3) else none
      else if c = 102 then
        if rest.take 4 = [97, 108, 115, 101] then some (.jfalse, rest.drop 4) else none
      else if c = 110 then
        if rest.take 3 = [117, 108, 108] then some (.jnull, rest.drop 3) else none
      else
        ((matchNumber (c :: rest)).map (fun lr => (JValue.jnum lr.1, lr.2))).orElse (fun _ =>
          if c = 78 ∧ rest.take 2 = [97, 78] then some (.jnum (cp "nan"), rest.drop 2)
          else if c = 73 ∧ rest.take 7 = cp "nfinity" then some (.jnum (cp "inf"), rest.drop 7)
          else if c = 45 ∧ rest.take 8 = cp "Infinity" then
            some (.jnum (cp "-inf"), rest.drop 8)
          else none)

/-- Parse the members of a JSON object after the opening brace (first
member onward), accumulating in order; duplicate keys are kept in order
here and resolved to the last occurrence at lookup, as building a Python
dict does. -/
def parseMembers : Nat → List Nat → List (List Nat × JValue) → Option (JValue × List Nat)
  | 0, _, _ => none
  | fuel + 1, input, acc =>
    match input with
    | 34 :: rest =>
      (parseStrBody (rest.length + 1) rest).bind (fun kr =>
        if (skipWs kr.2).head? = some 58 then
          (parseValue fuel (skipWs (skipWs kr.2).tail)).bind (fun vr =>
            if (skipWs vr.2).head? = some 44 then
              parseMembers fuel (skipWs (skipWs vr.2).tail) (acc ++ [(kr.1, vr.1)])
            else if (skipWs vr.2).head? = some 125 then
              some (.jobj (acc ++ [(kr.1, vr.1)]), (skipWs vr.2).tail)
            else none)
        else none)
    | _ => none

/-- Parse the items of a JSON array after the opening bracket. -/
def parseItems : Nat → List Nat → List JValue → Option (JValue × List Nat)
  | 0, _, _ => none
  | fuel + 1, input, acc =>
    (parseValue fuel input).bind (fun vr =>
      if (skipWs vr.2).head? = some 44 then
        parseItems fuel (skipWs (skipWs vr.2).tail) (acc ++ [vr.1])
      else if (skipWs vr.2).head? = some 93 then
        some (.jarr (acc ++ [vr.1]), (skipWs vr.2).tail)
      else none)

end

/-- `json.loads` applied to a bytes object: utf-8 decode, parse one JSON
value, require only whitespace to remain.  `none` models the raised
`JSONDecodeError` / `UnicodeDecodeError`. -/
def jsonLoads (bs : List Nat) : Option JValue :=
  (utf8Decode bs).bind (fun s =>
    (parseValue (s.length + 8) (skipWs s)).bind (fun vr =>
      if skipWs vr.2 = [] then some vr.1 else none))

/-- Python dict lookup on a parsed JSON object: the last occurrence of a
duplicated key wins. -/
def jlookup (k : List Nat) (ms : List (List Nat × JValue)) : Option JValue :=
  (ms.reverse.find? (fun p => p.1 == k)).map (·.2)

/-- Decoded metadata of a swap request as `confirm_swap_request` reads it
(sb1.py lines 181-189): the values found under the five keys.  Values
are arbitrary JSON values, as Python's dict lookups impose no type. -/
structure SwapMeta where
  ru : JValue
  sd : JValue
  st : JValue
  ed : JValue
  et : JValue
deriving Repr, Inhabited

/-- The token decode performed at resolution time (sb1.py line 181 plus
the five subscript lookups): `json.loads(b64decode(encoded_metadata))`,
requiring the result to be a dict carrying all five keys.  `none` models
any raised exception (`ValueError`, `binascii.Error`, `JSONDecodeError`,
`TypeError`, `KeyError`). -/
def decodeToken (tok : List Nat) : Option SwapMeta :=
  (b64decode tok).bind (fun bytes =>
    (jsonLoads bytes).bind (fun v =>
      match v with
      | .jobj ms =>
        (jlookup (cp "ru") ms).bind (fun ru =>
          (jlookup (cp "sd") ms).bind (fun sd =>
            (jlookup (cp "st") ms).bind (fun st =>
              (jlookup (cp "ed") ms).bind (fun ed =>
                (jlookup (cp "et") ms).map (fun et => ⟨ru, sd, st, ed, et⟩)))))
      | _ => none))

/-! ### String formatting of decoded values (Python f-strings) -/

mutual

/-- Python `repr` of a parsed JSON value, used when a container value is
interpolated into an f-string.  String quoting is simplified (single
quotes, no escape refinement): the bot's own tokens only ever carry
strings at the top level of the five fields, so container formatting is
unreachable on bot-produced messages. -/
def pyReprJ : JValue → List Nat
  | .jnull => cp "None"
  | .jtrue => cp "True"
  | .jfalse => cp "False"
  | .jnum lex => if lex = [45, 48] then [48] else lex
  | .jstr s => 39 :: s ++ [39]
  | .jarr items => 91 :: pyReprItems items ++ [93]
  | .jobj ms => 123 :: pyReprMembers ms ++ [125]

/-- Comma-separated `repr`s of list items. -/
def pyReprItems : List JValue → List Nat
  | [] => []
  | [x] => pyReprJ x
  | x :: xs => pyReprJ x ++ cp ", " ++ pyReprItems xs

/-- Comma-separated `repr`s of dict members. -/
def pyReprMembers : List (List Nat × JValue) → List Nat
  | [] => []
  | [(k, v)] => 39 :: k ++ [39] ++ cp ": " ++ pyReprJ v
  | (k, v) :: ms => 39 :: k ++ [39] ++ cp ": " ++ pyReprJ v ++ cp ", " ++ pyReprMembers ms

end

/-- Python `str` of a parsed JSON value, as f-string interpolation
applies it.  An integer lexeme is its own `str` (`-0` parses to the int
`0` and is normalised); a float lexeme stands in for its `str`, whose
exact formatting is out of scope. -/
def fmtJ : JValue → List Nat
  | .jnull => cp "None"
  | .jtrue => cp "True"
  | .jfalse => cp "False"
  | .jnum lex => if lex = [45, 48] then [48] else lex
  | .jstr s => s
  | .jarr items => pyReprJ (.jarr items)
  | .jobj ms => pyReprJ (.jobj ms)

/-! ### Message texts and Slack side effects -/

/-- One externally visible write against the Slack message store:
`chat_postMessage` or `chat_delete`. -/
inductive Effect where
  | post (channel : List Nat) (text : List Nat)
  | delete (channel : List Nat) (ts : Nat)
deriving DecidableEq, Repr

/-- Text of the swap-request message composed by `post_swap_request`
(sb1.py lines 129-137), including the trailing sentinel line carrying
the encoded token. -/
def postSwapText (requestor start_date start_time end_date end_time : List Nat) : List Nat :=
  cp ":hand: <!here> \n\n<@" ++ requestor ++ cp "> would like on-call coverage\nfrom:  *"
    ++ start_date ++ cp " " ++ start_time ++ cp "*\nto:  *"
    ++ end_date ++ cp " " ++ end_time
    ++ cp "*\n\nRespond to this message with :+1: to cover this period for <@"
    ++ requestor ++ cp ">\n\nRequestID:_"
    ++ encodeToken ⟨requestor, start_date, start_time, end_date, end_time⟩ ++ cp "_"

/-- `post_swap_request` (sb1.py lines 117-139): builds the metadata,
encodes it, composes the message and posts it to `channel`. -/
def post_swap_request (channel requestor start_date start_time end_date end_time : List Nat) :
    List Effect :=
  [.post channel (postSwapText requestor start_date start_time end_date end_time)]

/-- Text of the internal coordination notification composed by
`do_swap_confirmation` (sb1.py lines 145-150). -/
def doSwapText (taking_user : List Nat)
    (requesting_user start_date start_time end_date end_time : JValue) : List Nat :=
  cp "_This is the bot, posting a notification message in another channel about the swap, or doing API calls to Everbridge and HRWizzle._\n```INITIATE_ON_CALL_SWAP(from:<@"
    ++ fmtJ requesting_user ++ cp "> to:<@" ++ taking_user ++ cp "> start:"
    ++ fmtJ start_date ++ cp " " ++ fmtJ start_time ++ cp " end:"
    ++ fmtJ end_date ++ cp " " ++ fmtJ end_time
    ++ cp ")\nBEEP BOOP\nESCHATON IMMANTIZED\nEND OF LINE```\n"

/-- Text of the human-readable confirmation composed by
`post_swap_confirmation_message` (sb1.py lines 157-161). -/
def confirmText (taking_user : List Nat)
    (requesting_user start_date start_time end_date end_time : JValue) : List Nat :=
  cp "On call swap confirmed \n<@" ++ taking_user ++ cp "> will be on-call  \nfrom: *"
    ++ fmtJ start_date ++ cp " " ++ fmtJ start_time ++ cp "*\nto: *"
    ++ fmtJ end_date ++ cp " " ++ fmtJ end_time ++ cp "*\nin place of <@"
    ++ fmtJ requesting_user ++ cp ">"

/-! ### `str.splitlines` -/

/-- Line-break characters recognised by Python `str.splitlines`. -/
def isLineBreakChar (c : Nat) : Bool :=
  decide (c = 10 ∨ c = 13 ∨ c = 11 ∨ c = 12 ∨ c = 28 ∨ c = 29 ∨ c = 30 ∨ c = 0x85
    ∨ c = 0x2028 ∨ c = 0x2029)

/-- Worker for `pySplitlines`, carrying the current line reversed. -/
def splitlinesGo : List Nat → List Nat → List (List Nat)
  | [], acc => if acc.isEmpty then [] else [acc.reverse]
  | 13 :: 10 :: rest, acc => acc.reverse :: splitlinesGo rest []
  | c :: rest, acc =>
    if isLineBreakChar c then acc.reverse :: splitlinesGo rest []
    else splitlinesGo rest (c :: acc)

/-- Python `str.splitlines()`: split at line-break characters, `\r\n`
counting as a single break, with no trailing empty line for a trailing
break. -/
def pySplitlines (s : List Nat) : List (List Nat) := splitlinesGo s []

/-! ### The lifecycle engine: `confirm_swap_request` -/

/-- Outcome of a `confirm_swap_request` run that did not raise; the
Python function returns `None` on every path, so the outcome records
which path was taken (the spec's `Resolved` / `NotApplicable`, plus the
silent return when the history call reports failure). -/
inductive Outcome where
  | fetchFailed
  | notApplicable
  | resolved
deriving DecidableEq, Repr

/-- An uncaught Python exception escaping `confirm_swap_request`:
an `IndexError` from subscripting an empty message list or the last
line of an empty text, or any of the exceptions raised by the
un-guarded token decode (see the `TODO try/except` at sb1.py line 180). -/
inductive PyExn where
  | indexError
  | decodeExn
deriving DecidableEq, Repr

/-- The message returned by
`conversations_history(channel, latest=ts, limit=1, inclusive=True)`
(sb1.py lines 168-170): the most recent message whose timestamp is at
most `ts`.  The channel history `msgs` is given newest first, as Slack
returns it. -/
def fetchLatest (msgs : List (Nat × List Nat)) (ts : Nat) : Option (Nat × List Nat) :=
  msgs.find? (fun m => decide (m.1 ≤ ts))

/-- The sentinel carried by the last line of a pending swap request. -/
def sentinelLine : List Nat := cp "RequestID:"

/-- Token extraction `last[11:-1]` of sb1.py lines 177-179. -/
def extractToken (last : List Nat) : List Nat := (last.drop 11).dropLast

/-- `confirm_swap_request` (sb1.py lines 165-200): fetch the message
anchored at `ts`, inspect its last line for the sentinel, decode the
token, post the coordination and confirmation messages and delete the
original.  `ok` is the `ok` flag of the history response.  The result
pairs the message-store writes actually performed with either the
outcome or the uncaught exception. -/
def confirm_swap_request (ok : Bool) (msgs : List (Nat × List Nat))
    (channel : List Nat) (ts : Nat) (taking_user : List Nat) :
    List Effect × Except PyExn Outcome :=
  if ok then
    match fetchLatest msgs ts with
    | none => ([], .error .indexError)
    | some m =>
      match (pySplitlines m.2).getLast? with
      | none => ([], .error .indexError)
      | some last =>
        if sentinelLine.isPrefixOf last then
          match decodeToken (extractToken last) with
          | none => ([], .error .decodeExn)
          | some md =>
            ([.post channel (doSwapText taking_user md.ru md.sd md.st md.ed md.et),
              .post channel (confirmText taking_user md.ru md.sd md.st md.ed md.et),
              .delete channel ts], .ok .resolved)
        else ([], .ok .notApplicable)
  else ([], .ok .fetchFailed)

/-! ### Event dispatcher: `reaction_added` -/

/-- A `reaction_added` event as the handler reads it (sb1.py lines
203-215); every field is read with `.get`, so each is optional. -/
structure ReactionEvent where
  item_user : Option (List Nat)
  reaction : Option (List Nat)
  item_type : Option (List Nat)
  item_channel : Option (List Nat)
  item_ts : Option Nat
  user : Option (List Nat)

/-- The `reaction_added` handler (sb1.py lines 203-215): if and only if
the reacted-to item's author is the bot, the reaction is `+1` and the
item is a message, it invokes `confirm_swap_request` with the item's
channel and timestamp and the reacting user; otherwise nothing happens.
The result is the argument triple of the invocation, if any. -/
def reaction_added (my_slack_user : List Nat) (e : ReactionEvent) :
    Option (Option (List Nat) × Option Nat × List Nat) :=
  if e.item_user.getD [] = my_slack_user ∧ e.reaction.getD [] = cp "+1"
      ∧ e.item_type = some (cp "message") then
    some (e.item_channel, e.item_ts, e.user.getD [])
  else none

/-! ### Event dispatcher: `interactive` -/

/-- An interactive payload as the `/interactive` route reads it (sb1.py
lines 244-258).  `ptype`, the private metadata and the user id are read
with `.get` and so are optional; the four window values are read with
plain subscripts on the view state, which the form contract guarantees
to be present on a final submission. -/
structure ViewPayload where
  ptype : Option (List Nat)
  private_metadata : Option (List Nat)
  user_id : Option (List Nat)
  start_date : List Nat
  start_time : List Nat
  end_date : List Nat
  end_time : List Nat

/-- The `/interactive` route (sb1.py lines 244-269): anything that is
not a final `view_submission` returns with no side effect; a final
submission posts the swap request built from the form state, with the
channel taken from the view's private metadata and the requestor from
the submitting user's id. -/
def interactive (p : ViewPayload) : List Effect :=
  if p.ptype.getD [] = cp "view_submission" then
    post_swap_request (p.private_metadata.getD []) (p.user_id.getD [])
      p.start_date p.start_time p.end_date p.end_time
  else []

/-! ### `generate_modal` -/

/-- The pieces of a modal block element that `generate_modal` touches:
the `_initial_date_today` marker, the `initial_date` value, and the
rest of the element's JSON content, opaque here. -/
structure ModalElement where
  initial_date_today : Bool
  initial_date : Option (List Nat)
  rest : List Nat
deriving DecidableEq, Repr

/-- A modal block, which may or may not carry an element. -/
structure ModalBlock where
  element : Option ModalElement
deriving DecidableEq, Repr

/-- The parts of the modal JSON that `generate_modal` reads or writes:
its blocks and its `private_metadata` field. -/
structure Modal where
  blocks : List ModalBlock
  private_metadata : Option (List Nat)
deriving DecidableEq, Repr

/-- `copy.deepcopy` on the modal value: the copy is a distinct object
with equal value, so on the value level it is the identity; what matters
is that the mutations of `generate_modal` below are applied to the copy
and never to the global template. -/
def deepcopy (m : Modal) : Modal := m

/-- The per-block mutation of `generate_modal` (sb1.py lines 92-95):
for a block whose element carries a truthy `_initial_date_today`, pop
the marker and set `initial_date` to today. -/
def customizeBlock (today : List Nat) (b : ModalBlock) : ModalBlock :=
  match b.element with
  | some el =>
    if el.initial_date_today then ⟨some ⟨false, some today, el.rest⟩⟩ else b
  | none => b

/-- `generate_modal` (sb1.py lines 82-97): deep-copy the global
template, default the marked date pickers to today, attach the channel
as private metadata.  The global template cell is threaded explicitly:
the returned pair is (the generated modal, the value of the global
`modal_template` after the call), and because the code mutates only the
deep copy, the global comes back untouched. -/
def generate_modal (template : Modal) (today : List Nat) (channel : List Nat) :
    Modal × Modal :=
  let ret := deepcopy template
  let ret := Modal.mk (ret.blocks.map (customizeBlock today)) ret.private_metadata
  let ret := Modal.mk ret.blocks (some channel)
  (ret, template)

/-! ### Well-formedness of field values -/

/-- A code point that is a Unicode scalar value: what a well-formed
Python string consists of (no lone or paired surrogate code points, on
which `json.dumps`/`json.loads` do not round-trip). -/
def scalarChar (c : Nat) : Prop := c < 0x110000 ∧ ¬(0xD800 ≤ c ∧ c ≤ 0xDFFF)

instance (c : Nat) : Decidable (scalarChar c) := by unfold scalarChar; infer_instance

/-- A well-formed string: all scalar code points. -/
def scalarStr (s : List Nat) : Prop := ∀ c ∈ s, scalarChar c

instance (s : List Nat) : Decidable (scalarStr s) := by unfold scalarStr; infer_instance

/-- A well-formed field set. -/
def scalarFields (f : SwapFields) : Prop :=
  scalarStr f.ru ∧ scalarStr f.sd ∧ scalarStr f.st ∧ scalarStr f.ed ∧ scalarStr f.et

instance (f : SwapFields) : Decidable (scalarFields f) := by unfold scalarFields; infer_instance

/-- The parsed-object shape of an encoded field set. -/
def metaObj (f : SwapFields) : List (List Nat × JValue) :=
  [(cp "ru", .jstr f.ru), (cp "sd", .jstr f.sd), (cp "st", .jstr f.st),
   (cp "ed", .jstr f.ed), (cp "et", .jstr f.et)]

/-! ### Concrete example data used by witnesses -/

/-- An example field set, matching the scenario of spec §8. -/
def exFields : SwapFields :=
  ⟨cp "U1", cp "2024-01-01", cp "09:00", cp "2024-01-02", cp "09:00"⟩

/-- The text of the message `post_swap_request` posts for `exFields`. -/
def exText : List Nat :=
  postSwapText (cp "U1") (cp "2024-01-01") (cp "09:00") (cp "2024-01-02") (cp "09:00")

/-- The decoded metadata of `exFields`, all five values strings. -/
def exMeta : SwapMeta :=
  ⟨.jstr (cp "U1"), .jstr (cp "2024-01-01"), .jstr (cp "09:00"),
    .jstr (cp "2024-01-02"), .jstr (cp "09:00")⟩

/-! ## Theorems -/

/-! ### base64 lemmas -/

theorem b64chr_alpha : ∀ n, n < 64 → isB64Alpha (b64chr n) = true := by decide

theorem b64chr_ne61 : ∀ n, n < 64 → b64chr n ≠ 61 := by decide

theorem b64val_b64chr : ∀ n, n < 64 → b64val (b64chr n) = n := by decide

theorem b64alpha_lt : ∀ c, isB64Alpha c = true → c < 128 := by
  intro c hc
  simp [isB64Alpha] at hc
  omega

/-- Every character of a base64 encoding of genuine bytes is an alphabet
character or the padding `=`. -/
theorem b64encode_mem : ∀ bs, (∀ x ∈ bs, x < 256) → ∀ c ∈ b64encode bs,
    isB64Alpha c = true ∨ c = 61 := by
  intro bs
  induction bs using b64encode.induct with
  | case1 a b c rest ih =>
    intro h x hx
    have ha : a < 256 := h a (by simp)
    have hb : b < 256 := h b (by simp)
    have hc : c < 256 := h c (by simp)
    rw [b64encode] at hx
    simp only [List.mem_cons] at hx
    rcases hx with h1 | h1 | h1 | h1 | h1
    · exact Or.inl (h1 ▸ b64chr_alpha _ (by omega))
    · exact Or.inl (h1 ▸ b64chr_alpha _ (by omega))
    · exact Or.inl (h1 ▸ b64chr_alpha _ (by omega))
    · exact Or.inl (h1 ▸ b64chr_alpha _ (by omega))
    · exact ih (fun y hy => h y (by simp [hy])) x h1
  | case2 a b =>
    intro h x hx
    have ha : a < 256 := h a (by simp)
    have hb : b < 256 := h b (by simp)
    rw [b64encode] at hx
    simp only [List.mem_cons, List.not_mem_nil, or_false] at hx
    rcases hx with h1 | h1 | h1 | h1
    · exact Or.inl (h1 ▸ b64chr_alpha _ (by omega))
    · exact Or.inl (h1 ▸ b64chr_alpha _ (by omega))
    · exact Or.inl (h1 ▸ b64chr_alpha _ (by omega))
    · exact Or.inr h1
  | case3 a =>
    intro h x hx
    have ha : a < 256 := h a (by simp)
    rw [b64encode] at hx
    simp only [List.mem_cons, List.not_mem_nil, or_false] at hx
    rcases hx with h1 | h1 | h1 | h1
    · exact Or.inl (h1 ▸ b64chr_alpha _ (by omega))
    · exact Or.inl (h1 ▸ b64chr_alpha _ (by omega))
    · exact Or.inr h1
    · exact Or.inr h1
  | case4 =>
    intro _ x hx
    rw [b64encode] at hx
    simp at hx

/-- The forgiving decoder inverts the canonical encoder: each full
quantum of four alphabet characters emits its three bytes, a final
`xx==` quantum emits one byte, a final `xxx=` quantum emits two. -/
theorem a2b_encode : ∀ bs, (∀ x ∈ bs, x < 256) →
    a2bB64 (b64encode bs) [] 0 = some bs := by
  intro bs
  induction bs using b64encode.induct with
  | case1 a b c rest ih =>
    intro h
    have ha : a < 256 := h a (by simp)
    have hb : b < 256 := h b (by simp)
    have hc : c < 256 := h c (by simp)
    have h1 : isB64Alpha (b64chr (a / 4)) = true := b64chr_alpha _ (by omega)
    have h2 : isB64Alpha (b64chr (a % 4 * 16 + b / 16)) = true := b64chr_alpha _ (by omega)
    have h3 : isB64Alpha (b64chr (b % 16 * 4 + c / 64)) = true := b64chr_alpha _ (by omega)
    have h4 : isB64Alpha (b64chr (c % 64)) = true := b64chr_alpha _ (by omega)
    have v1 : b64val (b64chr (a / 4)) = a / 4 := b64val_b64chr _ (by omega)
    have v2 : b64val (b64chr (a % 4 * 16 + b / 16)) = a % 4 * 16 + b / 16 :=
      b64val_b64chr _ (by omega)
    have v3 : b64val (b64chr (b % 16 * 4 + c / 64)) = b % 16 * 4 + c / 64 :=
      b64val_b64chr _ (by omega)
    have v4 : b64val (b64chr (c % 64)) = c % 64 := b64val_b64chr _ (by omega)
    have hrest := ih (fun y hy => h y (by simp [hy]))
    rw [b64encode]
    simp [a2bB64, h1, h2, h3, h4, v1, v2, v3, v4, hrest, quadBytes]
    omega
  | case2 a b =>
    intro h
    have ha : a < 256 := h a (by simp)
    have hb : b < 256 := h b (by simp)
    have h1 : isB64Alpha (b64chr (a / 4)) = true := b64chr_alpha _ (by omega)
    have h2 : isB64Alpha (b64chr (a % 4 * 16 + b / 16)) = true := b64chr_alpha _ (by omega)
    have h3 : isB64Alpha (b64chr (b % 16 * 4)) = true := b64chr_alpha _ (by omega)
    have v1 : b64val (b64chr (a / 4)) = a / 4 := b64val_b64chr _ (by omega)
    have v2 : b64val (b64chr (a % 4 * 16 + b / 16)) = a % 4 * 16 + b / 16 :=
      b64val_b64chr _ (by omega)
    have v3 : b64val (b64chr (b % 16 * 4)) = b % 16 * 4 := b64val_b64chr _ (by omega)
    rw [b64encode]
    simp [a2bB64, h1, h2, h3, v1, v2, v3, show isB64Alpha 61 = false from rfl, flushQuad]
    omega
  | case3 a =>
    intro h
    have ha : a < 256 := h a (by simp)
    have h1 : isB64Alpha (b64chr (a / 4)) = true := b64chr_alpha _ (by omega)
    have h2 : isB64Alpha (b64chr (a % 4 * 16)) = true := b64chr_alpha _ (by omega)
    have v1 : b64val (b64chr (a / 4)) = a / 4 := b64val_b64chr _ (by omega)
    have v2 : b64val (b64chr (a % 4 * 16)) = a % 4 * 16 := b64val_b64chr _ (by omega)
    rw [b64encode]
    simp [a2bB64, h1, h2, v1, v2, show isB64Alpha 61 = false from rfl, flushQuad]
    omega
  | case4 => intro _; rfl

/-- `b64decode` inverts `b64encode` on genuine bytes. -/
theorem b64decode_encode (bs : List Nat) (h : ∀ x ∈ bs, x < 256) :
    b64decode (b64encode bs) = some bs := by
  have hmem := b64encode_mem bs h
  have hascii : (b64encode bs).all (fun c => decide (c < 128)) = true := by
    rw [List.all_eq_true]
    intro c hc
    rcases hmem c hc with h1 | h1
    · simpa using b64alpha_lt c h1
    · simp [h1]
  rw [b64decode, if_pos hascii]
  exact a2b_encode bs h

set_option maxHeartbeats 1000000 in
/-- Conformance of the decode model at inputs where a stricter or looser
model would diverge from CPython: forgiving base64 accepts stray and
early padding (`AB==CD==` decodes its first quantum and ignores the
rest, a `=` before two data characters is discarded) while still
rejecting a leftover quantum (`AA`); the number grammar rejects `01` and
`1e` (the leftover characters break the surrounding grammar) and accepts
the `Infinity`/`NaN` constants. -/
theorem decode_fidelity_checks :
    b64decode (cp "AB==CD==") = some [0]
    ∧ b64decode (cp "A=BCD=") = some [0, 16, 131]
    ∧ b64decode (cp "AA") = none
    ∧ jsonLoads (cp "[01]") = none
    ∧ jsonLoads (cp "[1e]") = none
    ∧ (jsonLoads (cp "[Infinity, NaN]")).isSome = true
    ∧ decodeToken (encodeToken exFields ++ [61]) = some exMeta :=
  ⟨rfl, rfl, rfl, rfl, rfl, rfl, rfl⟩

/-! ### UTF-8 and ASCII lemmas -/

theorem utf8Encode_ascii : ∀ s : List Nat, (∀ c ∈ s, c < 128) → utf8Encode s = s := by
  intro s
  induction s with
  | nil => intro _; rfl
  | cons c s' ih =>
    intro h
    have hc : c < 128 := h c (by simp)
    have ih' := ih (fun x hx => h x (by simp [hx]))
    rw [utf8Encode, List.map_cons, List.flatten_cons, utf8EncodeChar, if_pos (by omega : c < 0x80)]
    rw [utf8Encode] at ih'
    rw [ih']
    rfl

theorem utf8Decode_ascii : ∀ s : List Nat, (∀ c ∈ s, c < 128) → utf8Decode s = some s := by
  intro s
  induction s with
  | nil => intro _; rfl
  | cons c s' ih =>
    intro h
    have hc : c < 128 := h c (by simp)
    have ih' := ih (fun x hx => h x (by simp [hx]))
    rw [utf8Decode] at ih' ⊢
    rw [utf8Go, if_pos (show c < 0x80 by omega), ih']
    rfl

theorem hexDig_lt128 : ∀ d, d < 16 → hexDig d < 128 := by decide

theorem hex4_lt128 : ∀ n, ∀ x ∈ hex4 n, x < 128 := by
  intro n x hx
  simp only [hex4, List.mem_cons, List.not_mem_nil, or_false] at hx
  rcases hx with rfl | rfl | rfl | rfl <;>
    exact hexDig_lt128 _ (Nat.mod_lt _ (by omega))

theorem escapeChar_lt128 : ∀ c, ∀ x ∈ escapeChar c, x < 128 := by
  intro c x hx
  by_cases h1 : c = 34
  · subst h1; simp [escapeChar] at hx; omega
  by_cases h2 : c = 92
  · subst h2; simp [escapeChar] at hx; omega
  by_cases h3 : c = 8
  · subst h3; simp [escapeChar] at hx; omega
  by_cases h4 : c = 9
  · subst h4; simp [escapeChar] at hx; omega
  by_cases h5 : c = 10
  · subst h5; simp [escapeChar] at hx; omega
  by_cases h6 : c = 12
  · subst h6; simp [escapeChar] at hx; omega
  by_cases h7 : c = 13
  · subst h7; simp [escapeChar] at hx; omega
  rw [escapeChar, if_neg h1, if_neg h2, if_neg h3, if_neg h4, if_neg h5, if_neg h6,
    if_neg h7] at hx
  by_cases h8 : c < 32
  · rw [if_pos h8] at hx
    simp only [List.mem_cons] at hx
    rcases hx with rfl | rfl | hx
    · omega
    · omega
    · exact hex4_lt128 _ x hx
  rw [if_neg h8] at hx
  by_cases h9 : c ≤ 126
  · rw [if_pos h9] at hx
    simp only [List.mem_cons, List.not_mem_nil, or_false] at hx
    omega
  rw [if_neg h9] at hx
  by_cases h10 : c < 0x10000
  · rw [if_pos h10] at hx
    simp only [List.mem_cons] at hx
    rcases hx with rfl | rfl | hx
    · omega
    · omega
    · exact hex4_lt128 _ x hx
  · rw [if_neg h10] at hx
    simp only [List.mem_cons, List.mem_append, or_assoc] at hx
    rcases hx with rfl | rfl | hx | rfl | rfl | hx
    · omega
    · omega
    · exact hex4_lt128 _ x hx
    · omega
    · omega
    · exact hex4_lt128 _ x hx

theorem escapeString_lt128 : ∀ s, ∀ x ∈ escapeString s, x < 128 := by
  intro s x hx
  simp only [escapeString, List.mem_flatten, List.mem_map] at hx
  obtain ⟨l, ⟨c, _, rfl⟩, hxl⟩ := hx
  exact escapeChar_lt128 c x hxl

theorem strLit_lt128 : ∀ s, ∀ x ∈ strLit s, x < 128 := by
  intro s x hx
  rw [strLit] at hx
  rcases List.mem_cons.mp hx with rfl | hx2
  · omega
  · rcases List.mem_append.mp hx2 with hx3 | hx3
    · exact escapeString_lt128 s x hx3
    · simp at hx3; omega

theorem dumpsMeta_lt128 : ∀ f : SwapFields, ∀ x ∈ jsonDumpsMeta f, x < 128 := by
  intro f
  simp only [jsonDumpsMeta, List.forall_mem_append]
  repeat' apply And.intro
  all_goals first
    | exact strLit_lt128 _
    | decide

/-- The encoded token is the base64 of the (ASCII) serialised metadata. -/
theorem encodeToken_eq (f : SwapFields) : encodeToken f = b64encode (jsonDumpsMeta f) := by
  rw [encodeToken, utf8Encode_ascii _ (dumpsMeta_lt128 f)]

/-- Every character of an encoded token is a base64 alphabet character or
the padding `=`. -/
theorem encodeToken_mem (f : SwapFields) : ∀ c ∈ encodeToken f,
    isB64Alpha c = true ∨ c = 61 := by
  rw [encodeToken_eq]
  exact b64encode_mem _ (fun x hx => by have := dumpsMeta_lt128 f x hx; omega)

/-! ### JSON parser inversion lemmas -/

theorem isHexDigit_hexDig : ∀ d, d < 16 → isHexDigit (hexDig d) = true := by decide

theorem hexVal_hexDig : ∀ d, d < 16 → hexVal (hexDig d) = d := by decide

theorem escapeString_cons (c : Nat) (s : List Nat) :
    escapeString (c :: s) = escapeChar c ++ escapeString s := by
  simp [escapeString]

theorem readHex4_hex4 (n : Nat) (X : List Nat) (hn : n < 0x10000) :
    readHex4 (hex4 n ++ X) = some (n, X) := by
  have h1 := isHexDigit_hexDig (n / 4096 % 16) (by omega)
  have h2 := isHexDigit_hexDig (n / 256 % 16) (by omega)
  have h3 := isHexDigit_hexDig (n / 16 % 16) (by omega)
  have h4 := isHexDigit_hexDig (n % 16) (by omega)
  have v1 := hexVal_hexDig (n / 4096 % 16) (by omega)
  have v2 := hexVal_hexDig (n / 256 % 16) (by omega)
  have v3 := hexVal_hexDig (n / 16 % 16) (by omega)
  have v4 := hexVal_hexDig (n % 16) (by omega)
  rw [hex4]
  simp only [List.cons_append, List.nil_append]
  rw [readHex4, if_pos (by simp [h1, h2, h3, h4])]
  rw [v1, v2, v3, v4]
  have : n / 4096 % 16 * 4096 + n / 256 % 16 * 256 + n / 16 % 16 * 16 + n % 16 = n := by
    omega
  rw [this]

theorem parseStr_quote (f : Nat) (r : List Nat) :
    parseStrBody (f + 1) (34 :: r) = some ([], r) := by
  rw [parseStrBody.eq_def]
  dsimp only
  rw [if_pos rfl]

theorem parseStr_esc (f e t : Nat) (r : List Nat)
    (he : (e, t) = (34, 34) ∨ (e, t) = (92, 92) ∨ (e, t) = (47, 47) ∨ (e, t) = (98, 8)
      ∨ (e, t) = (102, 12) ∨ (e, t) = (110, 10) ∨ (e, t) = (114, 13) ∨ (e, t) = (116, 9)) :
    parseStrBody (f + 1) (92 :: e :: r) = mapFst t (parseStrBody f r) := by
  rcases he with h|h|h|h|h|h|h|h <;>
    (injection h with h1 h2; subst h1; subst h2;
     rw [parseStrBody.eq_def]; dsimp only; simp)

theorem parseStr_u (f : Nat) (r2 r3 : List Nat) (n : Nat)
    (hr : readHex4 r2 = some (n, r3)) (hn : ¬(0xD800 ≤ n ∧ n ≤ 0xDBFF)) :
    parseStrBody (f + 1) (92 :: 117 :: r2) = mapFst n (parseStrBody f r3) := by
  rw [parseStrBody.eq_def]
  dsimp only
  rw [hr]
  simp [hn]

theorem parseStr_pair (f : Nat) (r2 r4 r5 : List Nat) (n m : Nat)
    (hr1 : readHex4 r2 = some (n, 92 :: 117 :: r4))
    (hn : 0xD800 ≤ n ∧ n ≤ 0xDBFF)
    (hr2 : readHex4 r4 = some (m, r5))
    (hm : 0xDC00 ≤ m ∧ m ≤ 0xDFFF) :
    parseStrBody (f + 1) (92 :: 117 :: r2)
      = mapFst (0x10000 + (n - 0xD800) * 0x400 + (m - 0xDC00)) (parseStrBody f r5) := by
  rw [parseStrBody.eq_def]
  dsimp only
  rw [hr1]
  simp [hn, hr2, hm]

theorem parseStr_plain (f c : Nat) (r : List Nat) (h1 : c ≠ 34) (h2 : c ≠ 92) (h3 : ¬c < 32) :
    parseStrBody (f + 1) (c :: r) = mapFst c (parseStrBody f r) := by
  rw [parseStrBody.eq_def]
  dsimp only
  rw [if_neg h1, if_neg h2, if_neg h3]

theorem parseStrBody_escape : ∀ (s : List Nat), (∀ c ∈ s, scalarChar c) →
    ∀ (fuel : Nat) (rest : List Nat), (escapeString s).length < fuel →
    parseStrBody fuel (escapeString s ++ 34 :: rest) = some (s, rest) := by
  intro s
  induction s with
  | nil =>
    intro _ fuel rest hlen
    obtain ⟨f, rfl⟩ : ∃ f, fuel = f + 1 := ⟨fuel - 1, by omega⟩
    rw [show escapeString [] = [] from rfl, List.nil_append, parseStr_quote]
  | cons c s' ih =>
    intro hwf fuel rest hlen
    have hc : scalarChar c := hwf c (by simp)
    have hs' : ∀ x ∈ s', scalarChar x := fun x hx => hwf x (by simp [hx])
    rw [escapeString_cons] at hlen ⊢
    rw [List.append_assoc]
    rw [List.length_append] at hlen
    obtain ⟨f, rfl⟩ : ∃ f, fuel = f + 1 := ⟨fuel - 1, by omega⟩
    by_cases h34 : c = 34
    · subst h34
      have ihf := ih hs' f rest (by simp [show escapeChar 34 = [92, 34] from rfl] at hlen; omega)
      rw [show escapeChar 34 = [92, 34] from rfl]
      simp only [List.cons_append, List.nil_append]
      rw [parseStr_esc f 34 34 _ (by simp), ihf]
      rfl
    by_cases h92 : c = 92
    · subst h92
      have ihf := ih hs' f rest (by simp [show escapeChar 92 = [92, 92] from rfl] at hlen; omega)
      rw [show escapeChar 92 = [92, 92] from rfl]
      simp only [List.cons_append, List.nil_append]
      rw [parseStr_esc f 92 92 _ (by simp), ihf]
      rfl
    by_cases h8 : c = 8
    · subst h8
      have ihf := ih hs' f rest (by simp [show escapeChar 8 = [92, 98] from rfl] at hlen; omega)
      rw [show escapeChar 8 = [92, 98] from rfl]
      simp only [List.cons_append, List.nil_append]
      rw [parseStr_esc f 98 8 _ (by simp), ihf]
      rfl
    by_cases h9 : c = 9
    · subst h9
      have ihf := ih hs' f rest (by simp [show escapeChar 9 = [92, 116] from rfl] at hlen; omega)
      rw [show escapeChar 9 = [92, 116] from rfl]
      simp only [List.cons_append, List.nil_append]
      rw [parseStr_esc f 116 9 _ (by simp), ihf]
      rfl
    by_cases h10 : c = 10
    · subst h10
      have ihf := ih hs' f rest (by simp [show escapeChar 10 = [92, 110] from rfl] at hlen; omega)
      rw [show escapeChar 10 = [92, 110] from rfl]
      simp only [List.cons_append, List.nil_append]
      rw [parseStr_esc f 110 10 _ (by simp), ihf]
      rfl
    by_cases h12 : c = 12
    · subst h12
      have ihf := ih hs' f rest (by simp [show escapeChar 12 = [92, 102] from rfl] at hlen; omega)
      rw [show escapeChar 12 = [92, 102] from rfl]
      simp only [List.cons_append, List.nil_append]
      rw [parseStr_esc f 102 12 _ (by simp), ihf]
      rfl
    by_cases h13 : c = 13
    · subst h13
      have ihf := ih hs' f rest (by simp [show escapeChar 13 = [92, 114] from rfl] at hlen; omega)
      rw [show escapeChar 13 = [92, 114] from rfl]
      simp only [List.cons_append, List.nil_append]
      rw [parseStr_esc f 114 13 _ (by simp), ihf]
      rfl
    have hEgen : escapeChar c =
        if c < 32 then 92 :: 117 :: hex4 c
        else if c ≤ 126 then [c]
        else if c < 0x10000 then 92 :: 117 :: hex4 c
        else
          92 :: 117 :: hex4 (0xD800 + (c - 0x10000) / 0x400)
            ++ (92 :: 117 :: hex4 (0xDC00 + (c - 0x10000) % 0x400)) := by
      rw [escapeChar, if_neg h34, if_neg h92, if_neg h8, if_neg h9, if_neg h10, if_neg h12,
        if_neg h13]
    by_cases hlt32 : c < 32
    · have hE : escapeChar c = 92 :: 117 :: hex4 c := by rw [hEgen, if_pos hlt32]
      have ihf := ih hs' f rest (by rw [hE] at hlen; simp [hex4] at hlen; omega)
      have hrh := readHex4_hex4 c (escapeString s' ++ 34 :: rest) (by omega)
      rw [hE]
      simp only [List.cons_append, List.append_assoc]
      rw [parseStr_u f _ _ c hrh (by omega), ihf]
      rfl
    by_cases h126 : c ≤ 126
    · have hE : escapeChar c = [c] := by rw [hEgen, if_neg hlt32, if_pos h126]
      have ihf := ih hs' f rest (by rw [hE] at hlen; simp at hlen; omega)
      rw [hE]
      simp only [List.cons_append, List.nil_append]
      rw [parseStr_plain f c _ h34 h92 hlt32, ihf]
      rfl
    by_cases hbmp : c < 0x10000
    · have hE : escapeChar c = 92 :: 117 :: hex4 c := by
        rw [hEgen, if_neg hlt32, if_neg h126, if_pos hbmp]
      have ihf := ih hs' f rest (by rw [hE] at hlen; simp [hex4] at hlen; omega)
      have hrh := readHex4_hex4 c (escapeString s' ++ 34 :: rest) (by omega)
      have hnotsur : ¬(0xD800 ≤ c ∧ c ≤ 0xDBFF) := by
        have := hc.2
        omega
      rw [hE]
      simp only [List.cons_append, List.append_assoc]
      rw [parseStr_u f _ _ c hrh hnotsur, ihf]
      rfl
    · have hE : escapeChar c =
          92 :: 117 :: hex4 (0xD800 + (c - 0x10000) / 0x400)
            ++ (92 :: 117 :: hex4 (0xDC00 + (c - 0x10000) % 0x400)) := by
        rw [hEgen, if_neg hlt32, if_neg h126, if_neg hbmp]
      have hcbig : c < 0x110000 := hc.1
      have ihf := ih hs' f rest (by rw [hE] at hlen; simp [hex4] at hlen; omega)
      have hrh1 := readHex4_hex4 (0xD800 + (c - 0x10000) / 0x400)
        (92 :: 117 :: (hex4 (0xDC00 + (c - 0x10000) % 0x400) ++ (escapeString s' ++ 34 :: rest)))
        (by omega)
      have hrh2 := readHex4_hex4 (0xDC00 + (c - 0x10000) % 0x400)
        (escapeString s' ++ 34 :: rest) (by omega)
      rw [hE]
      simp only [List.cons_append, List.append_assoc]
      rw [parseStr_pair f _ _ _ _ _ hrh1 (by omega) hrh2 (by omega), ihf]
      have : 0x10000 + (0xD800 + (c - 0x10000) / 0x400 - 0xD800) * 0x400
          + (0xDC00 + (c - 0x10000) % 0x400 - 0xDC00) = c := by omega
      rw [this]
      rfl

theorem skipWs_nonws (c : Nat) (r : List Nat) (h : isJsonWs c = false) :
    skipWs (c :: r) = c :: r := by
  simp [skipWs, List.dropWhile, h]

theorem skipWs_sp (r : List Nat) : skipWs (32 :: r) = skipWs r := by
  simp [skipWs, List.dropWhile, isJsonWs]

theorem parseValue_str (fuel : Nat) (v Z : List Nat) (hv : scalarStr v) :
    parseValue (fuel + 1) (strLit v ++ Z) = some (.jstr v, Z) := by
  rw [strLit]
  simp only [List.cons_append, List.append_assoc, List.singleton_append, List.nil_append]
  rw [parseValue.eq_def]
  dsimp only
  have hb := parseStrBody_escape v hv ((escapeString v ++ 34 :: Z).length + 1) Z
    (by simp [List.length_append]; omega)
  rw [hb]
  simp

theorem skipWs_strLit (v X : List Nat) : skipWs (strLit v ++ X) = strLit v ++ X := by
  rw [strLit, List.cons_append]
  exact skipWs_nonws 34 _ (by decide)

theorem parseMembers_pair (fuel : Nat) (k v rest : List Nat) (acc : List (List Nat × JValue))
    (hk : scalarStr k) (hv : scalarStr v) :
    parseMembers (fuel + 2) (strLit k ++ (cp ": " ++ (strLit v ++ (cp ", " ++ rest)))) acc
      = parseMembers (fuel + 1) (skipWs rest) (acc ++ [(k, .jstr v)]) := by
  rw [show cp ": " = [58, 32] from rfl, show cp ", " = [44, 32] from rfl]
  conv_lhs => rw [strLit]
  simp only [List.cons_append, List.append_assoc, List.singleton_append, List.nil_append]
  rw [parseMembers.eq_def]
  dsimp only
  have hbk := parseStrBody_escape k hk
    ((escapeString k ++ 34 :: (58 :: 32 :: (strLit v ++ 44 :: 32 :: rest))).length + 1)
    (58 :: 32 :: (strLit v ++ 44 :: 32 :: rest))
    (by simp [List.length_append]; omega)
  rw [hbk]
  rw [Option.some_bind]
  rw [show skipWs (58 :: 32 :: (strLit v ++ 44 :: 32 :: rest))
      = 58 :: 32 :: (strLit v ++ 44 :: 32 :: rest) from skipWs_nonws 58 _ (by decide)]
  simp only [List.head?_cons, List.tail_cons, if_pos rfl]
  rw [skipWs_sp, skipWs_strLit]
  rw [parseValue_str fuel v (44 :: 32 :: rest) hv]
  rw [Option.some_bind]
  rw [show skipWs (44 :: 32 :: rest) = 44 :: 32 :: rest from skipWs_nonws 44 _ (by decide)]
  simp only [List.head?_cons, List.tail_cons, if_pos rfl]
  rw [skipWs_sp]
  simp

theorem parseMembers_last (fuel : Nat) (k v rest : List Nat) (acc : List (List Nat × JValue))
    (hk : scalarStr k) (hv : scalarStr v) :
    parseMembers (fuel + 2) (strLit k ++ (cp ": " ++ (strLit v ++ (125 :: rest)))) acc
      = some (.jobj (acc ++ [(k, .jstr v)]), rest) := by
  rw [show cp ": " = [58, 32] from rfl]
  conv_lhs => rw [strLit]
  simp only [List.cons_append, List.append_assoc, List.singleton_append, List.nil_append]
  rw [parseMembers.eq_def]
  dsimp only
  have hbk := parseStrBody_escape k hk
    ((escapeString k ++ 34 :: (58 :: 32 :: (strLit v ++ 125 :: rest))).length + 1)
    (58 :: 32 :: (strLit v ++ 125 :: rest))
    (by simp [List.length_append]; omega)
  rw [hbk]
  rw [Option.some_bind]
  rw [show skipWs (58 :: 32 :: (strLit v ++ 125 :: rest))
      = 58 :: 32 :: (strLit v ++ 125 :: rest) from skipWs_nonws 58 _ (by decide)]
  simp only [List.head?_cons, List.tail_cons, if_pos rfl]
  rw [skipWs_sp, skipWs_strLit]
  rw [parseValue_str fuel v (125 :: rest) hv]
  rw [Option.some_bind]
  rw [show skipWs (125 :: rest) = 125 :: rest from skipWs_nonws 125 _ (by decide)]
  simp only [List.head?_cons, List.tail_cons]
  simp

theorem strLit_head (v X : List Nat) : (strLit v ++ X).head? = some 34 := by
  rw [strLit, List.cons_append]
  rfl

theorem jsonDumpsMeta_decomp (f : SwapFields) :
    jsonDumpsMeta f = 123 :: (strLit (cp "ru") ++ (cp ": " ++ (strLit f.ru ++ (cp ", " ++
      (strLit (cp "sd") ++ (cp ": " ++ (strLit f.sd ++ (cp ", " ++
      (strLit (cp "st") ++ (cp ": " ++ (strLit f.st ++ (cp ", " ++
      (strLit (cp "ed") ++ (cp ": " ++ (strLit f.ed ++ (cp ", " ++
      (strLit (cp "et") ++ (cp ": " ++ (strLit f.et ++ ([125] : List Nat)))))))))))))))))))) := by
  rw [jsonDumpsMeta]
  simp [List.append_assoc]

theorem parseValue_dumps (f : SwapFields) (hf : scalarFields f) (fuel : Nat) :
    parseValue (fuel + 7) (jsonDumpsMeta f) = some (.jobj (metaObj f), []) := by
  obtain ⟨h1, h2, h3, h4, h5⟩ := hf
  rw [jsonDumpsMeta_decomp]
  rw [parseValue.eq_def]
  dsimp only
  rw [skipWs_strLit, strLit_head]
  simp only [if_pos rfl, show (some 34 = some 125) = False by simp, if_false]
  rw [show fuel + 6 = (fuel + 4) + 2 from by omega]
  rw [parseMembers_pair _ _ _ _ _ (by decide) h1, skipWs_strLit]
  rw [show fuel + 5 = (fuel + 3) + 2 from by omega]
  rw [parseMembers_pair _ _ _ _ _ (by decide) h2, skipWs_strLit]
  rw [show fuel + 4 = (fuel + 2) + 2 from by omega]
  rw [parseMembers_pair _ _ _ _ _ (by decide) h3, skipWs_strLit]
  rw [show fuel + 3 = (fuel + 1) + 2 from by omega]
  rw [parseMembers_pair _ _ _ _ _ (by decide) h4, skipWs_strLit]
  rw [show fuel + 2 = fuel + 2 from rfl]
  rw [parseMembers_last _ _ _ _ _ (by decide) h5]
  simp [metaObj]

theorem jsonLoads_dumps (f : SwapFields) (hf : scalarFields f) :
    jsonLoads (jsonDumpsMeta f) = some (.jobj (metaObj f)) := by
  have hsw : skipWs (jsonDumpsMeta f) = jsonDumpsMeta f := by
    rw [jsonDumpsMeta_decomp]
    exact skipWs_nonws 123 _ (by decide)
  rw [jsonLoads, utf8Decode_ascii _ (dumpsMeta_lt128 f), Option.some_bind, hsw]
  rw [show (jsonDumpsMeta f).length + 8 = ((jsonDumpsMeta f).length + 1) + 7 from by omega]
  rw [parseValue_dumps f hf, Option.some_bind]
  simp [skipWs]

theorem decodeToken_encodeToken (f : SwapFields) (hf : scalarFields f) :
    decodeToken (encodeToken f)
      = some ⟨.jstr f.ru, .jstr f.sd, .jstr f.st, .jstr f.ed, .jstr f.et⟩ := by
  rw [decodeToken, encodeToken_eq]
  rw [b64decode_encode _ (fun x hx => by have := dumpsMeta_lt128 f x hx; omega),
    Option.some_bind]
  rw [jsonLoads_dumps f hf, Option.some_bind]
  dsimp only
  rw [show jlookup (cp "ru") (metaObj f) = some (.jstr f.ru) from rfl,
    show jlookup (cp "sd") (metaObj f) = some (.jstr f.sd) from rfl,
    show jlookup (cp "st") (metaObj f) = some (.jstr f.st) from rfl,
    show jlookup (cp "ed") (metaObj f) = some (.jstr f.ed) from rfl,
    show jlookup (cp "et") (metaObj f) = some (.jstr f.et) from rfl]
  rfl

theorem splitlinesGo_cons_nobreak (c : Nat) (rest acc : List Nat)
    (h : isLineBreakChar c = false) :
    splitlinesGo (c :: rest) acc = splitlinesGo rest (c :: acc) := by
  have h13 : c ≠ 13 := by
    intro e
    subst e
    simp [isLineBreakChar] at h
  rw [splitlinesGo.eq_def]
  split
  · simp_all
  · simp_all
  · simp_all

theorem splitlinesGo_cons_break (c : Nat) (rest acc : List Nat)
    (hbr : isLineBreakChar c = true) (h13 : c ≠ 13) :
    splitlinesGo (c :: rest) acc = acc.reverse :: splitlinesGo rest [] := by
  rw [splitlinesGo.eq_def]
  split <;> simp_all

theorem splitlinesGo_crlf (rest acc : List Nat) :
    splitlinesGo (13 :: 10 :: rest) acc = acc.reverse :: splitlinesGo rest [] := rfl

theorem splitlinesGo_cr_cons (d : Nat) (rest acc : List Nat) (hd : d ≠ 10) :
    splitlinesGo (13 :: d :: rest) acc = acc.reverse :: splitlinesGo (d :: rest) [] := by
  rw [splitlinesGo.eq_def]
  split
  · simp_all
  · rename_i heq
    injection heq with e1 e2
    injection e2 with e3 _
    exact absurd e3 hd
  · simp_all [isLineBreakChar]

theorem splitlinesGo_nobreak : ∀ (B acc : List Nat),
    (∀ c ∈ B, isLineBreakChar c = false) → B ≠ [] ∨ acc ≠ [] →
    splitlinesGo B acc = [acc.reverse ++ B] := by
  intro B
  induction B with
  | nil =>
    intro acc _ hne
    have hacc : acc ≠ [] := by tauto
    cases acc with
    | nil => exact absurd rfl hacc
    | cons a as => simp [splitlinesGo]
  | cons c B' ih =>
    intro acc hB _
    have hc : isLineBreakChar c = false := hB c (by simp)
    rw [splitlinesGo_cons_nobreak c B' acc hc]
    rw [ih (c :: acc) (fun x hx => hB x (by simp [hx])) (Or.inr (by simp))]
    simp

theorem getLast?_cons_some {α : Type} (a : α) (l : List α) (b : α)
    (h : l.getLast? = some b) : (a :: l).getLast? = some b := by
  cases l with
  | nil => simp at h
  | cons x xs => rw [List.getLast?_cons_cons]; exact h

theorem splitlinesGo_last (B : List Nat) (hB : ∀ c ∈ B, isLineBreakChar c = false)
    (hne : B ≠ []) :
    ∀ (n : Nat) (s acc : List Nat), s.length ≤ n →
      (splitlinesGo (s ++ 10 :: B) acc).getLast? = some B := by
  have hgoB : splitlinesGo B [] = [B] := by
    rw [splitlinesGo_nobreak B [] hB (Or.inl hne)]
    simp
  intro n
  induction n with
  | zero =>
    intro s acc hlen
    have hs : s = [] := by cases s <;> simp_all
    subst hs
    rw [List.nil_append,
      splitlinesGo_cons_break 10 B acc (by decide) (by decide), hgoB]
    exact getLast?_cons_some _ _ _ rfl
  | succ n ihn =>
    intro s acc hlen
    cases s with
    | nil =>
      rw [List.nil_append,
        splitlinesGo_cons_break 10 B acc (by decide) (by decide), hgoB]
      exact getLast?_cons_some _ _ _ rfl
    | cons c s' =>
      rw [List.cons_append]
      by_cases h13 : c = 13
      · subst h13
        cases s' with
        | nil =>
          rw [List.nil_append, splitlinesGo_crlf, hgoB]
          exact getLast?_cons_some _ _ _ rfl
        | cons d s'' =>
          rw [List.cons_append]
          by_cases hd : d = 10
          · subst hd
            rw [splitlinesGo_crlf]
            exact getLast?_cons_some _ _ _
              (ihn s'' [] (by simp at hlen ⊢; omega))
          · rw [splitlinesGo_cr_cons d _ acc hd]
            exact getLast?_cons_some _ _ _
              (by rw [show d :: (s'' ++ 10 :: B) = (d :: s'') ++ 10 :: B from rfl]
                  exact ihn (d :: s'') [] (by simp at hlen ⊢; omega))
      · by_cases hbr : isLineBreakChar c = true
        · rw [splitlinesGo_cons_break c _ acc hbr h13]
          exact getLast?_cons_some _ _ _ (ihn s' [] (by simp at hlen; omega))
        · rw [splitlinesGo_cons_nobreak c _ acc (by simpa using hbr)]
          exact ihn s' (c :: acc) (by simp at hlen; omega)

theorem pySplitlines_last (s B : List Nat) (hB : ∀ c ∈ B, isLineBreakChar c = false)
    (hne : B ≠ []) : (pySplitlines (s ++ 10 :: B)).getLast? = some B :=
  splitlinesGo_last B hB hne s.length s [] le_rfl

theorem postSwapText_decomp (r sd st ed et : List Nat) :
    postSwapText r sd st ed et
      = (cp ":hand: <!here> \n\n<@" ++ r ++ cp "> would like on-call coverage\nfrom:  *"
         ++ sd ++ cp " " ++ st ++ cp "*\nto:  *" ++ ed ++ cp " " ++ et
         ++ cp "*\n\nRespond to this message with :+1: to cover this period for <@"
         ++ r ++ [62, 10])
        ++ 10 :: (cp "RequestID:_" ++ encodeToken ⟨r, sd, st, ed, et⟩ ++ cp "_") := by
  rw [postSwapText,
    show cp ">\n\nRequestID:_" = [62, 10] ++ 10 :: cp "RequestID:_" from rfl]
  simp [List.append_assoc]

theorem b64char_not_special (c : Nat) (h : isB64Alpha c = true ∨ c = 61) :
    isLineBreakChar c = false ∧ c ≠ 10 ∧ c ≠ 95 := by
  simp [isB64Alpha] at h
  simp [isLineBreakChar]
  omega

theorem sentinel_token_nobreak (f : SwapFields) :
    ∀ c ∈ cp "RequestID:_" ++ encodeToken f ++ cp "_", isLineBreakChar c = false := by
  intro c hc
  rcases List.mem_append.mp hc with hc2 | hc2
  · rcases List.mem_append.mp hc2 with hc3 | hc3
    · exact (by decide : ∀ x ∈ cp "RequestID:_", isLineBreakChar x = false) c hc3
    · exact (b64char_not_special c (encodeToken_mem f c hc3)).1
  · exact (by decide : ∀ x ∈ cp "_", isLineBreakChar x = false) c hc2

theorem extractToken_sentinel (tok : List Nat) :
    extractToken (cp "RequestID:_" ++ tok ++ cp "_") = tok := by
  rw [extractToken, List.append_assoc,
    show (11 : Nat) = (cp "RequestID:_").length from rfl, List.drop_left]
  rw [show cp "_" = [95] from rfl]
  simp

/-- C3 evidence: on a message carrying the sentinel but an undecodable
token, the un-guarded decode raises (the `TODO try/except` of sb1.py
line 180 is not there), modelled by the `Except.error` outcome; the run
performs no message-store write, but it ends in an uncaught exception
rather than in a returned `DecodeError`. -/
theorem decode_raises_on_bad_token :
    decodeToken (cp "A") = none ∧
    confirm_swap_request true [(7, cp "swap stuff\nRequestID:_A_")] (cp "C") 7 (cp "U2")
      = ([], .error .decodeExn) :=
  ⟨rfl, rfl⟩

/-- C4: on a fetched message whose last line does not start with the
sentinel, `confirm_swap_request` takes the not-applicable path and
performs zero message-store writes. -/
theorem confirm_not_applicable (msgs : List (Nat × List Nat)) (channel : List Nat) (ts : Nat)
    (taking_user : List Nat) (m : Nat × List Nat) (last : List Nat)
    (hfetch : fetchLatest msgs ts = some m)
    (hlast : (pySplitlines m.2).getLast? = some last)
    (hsent : sentinelLine.isPrefixOf last = false) :
    confirm_swap_request true msgs channel ts taking_user = ([], .ok .notApplicable) := by
  simp [confirm_swap_request, hfetch, hlast, hsent]

/-- Witness for C4: reacting to an ordinary message is a no-op. -/
theorem confirm_not_applicable_witness :
    confirm_swap_request true [(9, cp "hello there\ngeneral message")] (cp "C") 9 (cp "U2")
      = ([], .ok .notApplicable) :=
  confirm_not_applicable [(9, cp "hello there\ngeneral message")] (cp "C") 9 (cp "U2")
    (9, cp "hello there\ngeneral message") (cp "general message")
    (by rfl) (by rfl) (by rfl)

/-- C5: a reaction event whose item author differs from the bot, or whose
symbol is not `+1`, or whose item is not a message, never invokes
`confirm_swap_request`. -/
theorem reaction_filtered (my_slack_user : List Nat) (e : ReactionEvent)
    (h : e.item_user.getD [] ≠ my_slack_user ∨ e.reaction.getD [] ≠ cp "+1"
      ∨ e.item_type ≠ some (cp "message")) :
    reaction_added my_slack_user e = none := by
  rw [reaction_added, if_neg]
  tauto

/-- Witness for C5: a `+1` on a message authored by someone else than the
bot is discarded. -/
theorem reaction_filtered_witness :
    reaction_added (cp "UBOT")
      ⟨some (cp "U9"), some (cp "+1"), some (cp "message"), some (cp "C"), some 5, some (cp "U2")⟩
      = none :=
  reaction_filtered (cp "UBOT")
    ⟨some (cp "U9"), some (cp "+1"), some (cp "message"), some (cp "C"), some 5, some (cp "U2")⟩
    (Or.inl (by decide))

/-- C6 (amended): the history call is anchored at `ts` inclusively with
limit one, so it retrieves the most recent message whose timestamp is at
most `ts`; whenever a message with timestamp exactly `ts` exists in the
(newest-first sorted) channel history, the fetched message is exactly
that one. -/
theorem fetch_anchored (msgs : List (Nat × List Nat)) (ts : Nat) (txt : List Nat)
    (hsort : msgs.Pairwise (fun a b => b.1 < a.1)) (hmem : (ts, txt) ∈ msgs) :
    fetchLatest msgs ts = some (ts, txt) := by
  induction msgs with
  | nil => simp at hmem
  | cons hd tl ih =>
    rcases List.mem_cons.mp hmem with heq | hmem'
    · subst heq
      simp [fetchLatest]
    · rcases List.pairwise_cons.mp hsort with ⟨hlt, htl⟩
      have hgt : ts < hd.1 := hlt (ts, txt) hmem'
      rw [fetchLatest, List.find?_cons_of_neg]
      · exact ih htl hmem'
      · simp
        omega

/-- Witness for C6 (amended): in a two-message history the fetch at the
timestamp of the older message returns exactly that message. -/
theorem fetch_anchored_witness :
    fetchLatest [(5, cp "newer"), (3, cp "older")] 3 = some (3, cp "older") :=
  fetch_anchored [(5, cp "newer"), (3, cp "older")] 3 (cp "older")
    (by simp) (by simp)

/-- C6 counterexample: the fetch of `confirm_swap_request` is not a point
lookup.  With a history holding only a message at timestamp 1, the fetch
anchored at timestamp 2 still returns that older message, whose text is
then the one inspected — not the message with timestamp 2, which does
not exist. -/
theorem fetch_not_point_lookup :
    fetchLatest [(1, cp "an older unrelated message")] 2
        = some (1, cp "an older unrelated message")
      ∧ (1 : Nat) ≠ 2 :=
  ⟨rfl, by decide⟩

/-- C9: the `/interactive` route invokes `post_swap_request` if and only
if the payload is a final `view_submission`; when it does, the channel
is the view's private metadata, the requestor is the submitting user's
id and the window fields come from the form state; any other view
interaction produces no side effect. -/
theorem interactive_spec (p : ViewPayload) :
    (p.ptype.getD [] = cp "view_submission" →
      interactive p = [Effect.post (p.private_metadata.getD [])
        (postSwapText (p.user_id.getD []) p.start_date p.start_time p.end_date p.end_time)]) ∧
    (p.ptype.getD [] ≠ cp "view_submission" → interactive p = []) := by
  constructor <;> intro h <;> simp [interactive, post_swap_request, h]

/-- Witness for C9: a final submission posts exactly the swap request
composed from its fields, and a non-final interaction does nothing. -/
theorem interactive_spec_witness :
    interactive ⟨some (cp "view_submission"), some (cp "CX"), some (cp "U1"),
        cp "2024-01-01", cp "09:00", cp "2024-01-02", cp "09:00"⟩
      = [Effect.post (cp "CX") exText]
    ∧ interactive ⟨some (cp "block_actions"), some (cp "CX"), some (cp "U1"),
        cp "2024-01-01", cp "09:00", cp "2024-01-02", cp "09:00"⟩ = [] :=
  ⟨(interactive_spec _).1 (by decide), (interactive_spec _).2 (by decide)⟩

/-- C10: `generate_modal` returns a fresh copy of the template with the
channel attached as private metadata (after defaulting the marked date
pickers), the global template itself comes back unchanged, and repeated
calls with different channels never observe each other's modifications. -/
theorem generate_modal_frame (t : Modal) (today c1 c2 : List Nat) :
    (generate_modal t today c1).2 = t
    ∧ (generate_modal t today c1).1
        = Modal.mk ((deepcopy t).blocks.map (customizeBlock today)) (some c1)
    ∧ (generate_modal ((generate_modal t today c1).2) today c2).1
        = (generate_modal t today c2).1 :=
  ⟨rfl, rfl, rfl⟩

/-- C2: the token codec round-trips exactly: decoding the token encoded
from any well-formed field set (five strings of Unicode scalar values)
yields precisely those five field values back, each as a JSON string. -/
theorem token_roundtrip (f : SwapFields) (hf : scalarFields f) :
    decodeToken (encodeToken f)
      = some ⟨.jstr f.ru, .jstr f.sd, .jstr f.st, .jstr f.ed, .jstr f.et⟩ := by
  rw [decodeToken, encodeToken_eq]
  rw [b64decode_encode _ (fun x hx => by have := dumpsMeta_lt128 f x hx; omega),
    Option.some_bind]
  rw [jsonLoads_dumps f hf, Option.some_bind]
  dsimp only
  rw [show jlookup (cp "ru") (metaObj f) = some (.jstr f.ru) from rfl,
    show jlookup (cp "sd") (metaObj f) = some (.jstr f.sd) from rfl,
    show jlookup (cp "st") (metaObj f) = some (.jstr f.st) from rfl,
    show jlookup (cp "ed") (metaObj f) = some (.jstr f.ed) from rfl,
    show jlookup (cp "et") (metaObj f) = some (.jstr f.et) from rfl]
  rfl

/-- Witness for C2: the example field set is well-formed and its token
decodes back to exactly its five values. -/
theorem token_roundtrip_witness :
    scalarFields exFields ∧ decodeToken (encodeToken exFields) = some exMeta :=
  ⟨by decide, token_roundtrip exFields (by decide)⟩

/-- C7: the message posted by `post_swap_request` ends in a single
trailing line `RequestID:_` + token + `_`; the encoded token contains no
line break (in particular no newline) and no `_`, and the `last[11:-1]`
extraction recovers exactly the token. -/
theorem wire_format (requestor start_date start_time end_date end_time : List Nat) :
    (pySplitlines (postSwapText requestor start_date start_time end_date end_time)).getLast?
        = some (cp "RequestID:_"
            ++ encodeToken ⟨requestor, start_date, start_time, end_date, end_time⟩ ++ cp "_")
    ∧ (∀ c ∈ encodeToken ⟨requestor, start_date, start_time, end_date, end_time⟩,
        isLineBreakChar c = false ∧ c ≠ 10 ∧ c ≠ 95)
    ∧ extractToken (cp "RequestID:_"
          ++ encodeToken ⟨requestor, start_date, start_time, end_date, end_time⟩ ++ cp "_")
        = encodeToken ⟨requestor, start_date, start_time, end_date, end_time⟩ := by
  refine ⟨?_, ?_, extractToken_sentinel _⟩
  · rw [postSwapText_decomp]
    exact pySplitlines_last _ _ (sentinel_token_nobreak _) (by simp [cp])
  · intro c hc
    exact b64char_not_special c (encodeToken_mem _ c hc)

/-- Witness for C7: concrete instance on the example request — the
posted message's last line is the sentinel line of its token, and the
extraction recovers the token. -/
theorem wire_format_witness :
    (pySplitlines exText).getLast? = some (cp "RequestID:_" ++ encodeToken exFields ++ cp "_")
    ∧ extractToken (cp "RequestID:_" ++ encodeToken exFields ++ cp "_") = encodeToken exFields :=
  ⟨(wire_format (cp "U1") (cp "2024-01-01") (cp "09:00") (cp "2024-01-02") (cp "09:00")).1,
   (wire_format (cp "U1") (cp "2024-01-01") (cp "09:00") (cp "2024-01-02") (cp "09:00")).2.2⟩

end Fomobot
